import Mathlib

/-!
Verification of the reconciliation engine in `src/jobs/upcoming.js`.

The script gathers dates, payload names and launch sites from a wiki manifest,
fuzzy-matches payload labels against upcoming registry records, classifies the
date cell's precision via a fixed set of regular-expression shapes, resolves the
site label to a canonical facility, recomputes flight numbers from the manifest
order, patches each matched record, and finally pings a healthcheck.  The whole
body runs inside one try/catch whose handler only logs.

The embedding below models the text pipeline over `List Char`/`String`:
 - the JS regexes are translated into executable deterministic recognizers
   (the character classes of adjacent regex tokens are disjoint, so greedy
   scanning is exact; the one genuinely ambiguous split, the 1-or-2 digit day
   in front of an `HH:MM` time, is an explicit two-way alternation);
 - `fuzzball.partial_ratio`/`fuzzball.ratio` are external library calls, so
   only their score-is-100 tests are modelled, from the spec's definition of
   the score (containment / equality after fuzzy normalization);
 - the `moment` calls are external: the model records the exact string the
   code hands to `moment` (`date_input`) instead of a resolved instant;
 - network effects (patch requests, the healthcheck ping) become an explicit
   event trace, and the top-level catch becomes `runJob`, which drops the
   error and keeps the trace.
-/

/-- ASCII whitespace, the relevant fragment of the JS `\s` class
(the wiki cells contain only ASCII). -/
def isWsC (c : Char) : Bool :=
  c == ' ' || c == '\t' || c == '\n' || c == '\r' || c == '\x0b' || c == '\x0c'

def dropWsL (l : List Char) : List Char := l.dropWhile isWsC

def allWsL (l : List Char) : Bool := l.all isWsC

/-- Exact-case: `tok` is a prefix of `hay`. -/
def leadsEx : List Char → List Char → Bool
  | [], _ => true
  | _ :: _, [] => false
  | a :: as, b :: bs => (a == b) && leadsEx as bs

/-- Case-insensitive: `tok` is a prefix of `hay` (ASCII lowering, as in JS
regex `i`-flag matching over these ASCII tokens). -/
def leadsCI : List Char → List Char → Bool
  | [], _ => true
  | _ :: _, [] => false
  | a :: as, b :: bs => (a.toLower == b.toLower) && leadsCI as bs

/-- `needle` occurs contiguously inside `hay` (JS `String.includes`). -/
def hasSubL : List Char → List Char → Bool
  | [], needle => needle.isEmpty
  | h :: t, needle => leadsEx needle (h :: t) || hasSubL t needle

def hasSubCI (hay needle : List Char) : Bool :=
  hasSubL (hay.map Char.toLower) (needle.map Char.toLower)

/-- JS `s.includes(pat)`. -/
def strContains (s pat : String) : Bool := hasSubL s.data pat.data

/-- Case-insensitive containment, i.e. JS `/pat/i.test(s)` for a literal
alternation-free pattern `pat`. -/
def strContainsCI (s pat : String) : Bool := hasSubCI s.data pat.data

/-- JS `String.prototype.replace` with a plain-string pattern: replace the
first occurrence only. -/
def replFirstL : List Char → List Char → List Char → List Char
  | [], _, _ => []
  | c :: t, needle, repl =>
    if leadsEx needle (c :: t) then repl ++ (c :: t).drop needle.length
    else c :: replFirstL t needle repl

def replaceFirstStr (s needle repl : String) : String :=
  String.mk (replFirstL s.data needle.data repl.data)

/-- JS `String.trim` (ASCII fragment). -/
def trimL (l : List Char) : List Char :=
  ((l.dropWhile isWsC).reverse.dropWhile isWsC).reverse

/-- `split('/')[0]`: the part before the first slash. -/
def takeBeforeSlash (l : List Char) : List Char := l.takeWhile (fun c => !(c == '/'))

/-- Global case-insensitive replacement of a token alternation by a single
space, as in `s.replace(/(tok1|tok2|...)/gi, ' ')`: scan left to right, at
each position try the alternatives in order; on a match emit one space and
resume after the matched token. -/
def stripGo (toks : List (List Char)) : Nat → List Char → List Char
  | _, [] => []
  | 0, l => l
  | fuel + 1, c :: t =>
    match toks.find? (fun tok => leadsCI tok (c :: t)) with
    | some tok => ' ' :: stripGo toks fuel (t.drop (tok.length - 1))
    | none => c :: stripGo toks fuel t

/-- Every step of `stripGo` consumes at least one character, so fuel equal to
the input length never runs out: the `0, l => l` arm is unreachable. -/
def stripWith (toks : List (List Char)) (l : List Char) : List Char :=
  stripGo toks l.length l

/-- Alternation of `upcoming.js` line 118:
`/(~|early|mid|late|end|tbd|tba)/gi`. -/
def noiseToks : List (List Char) :=
  ["~".data, "early".data, "mid".data, "late".data, "end".data, "tbd".data, "tba".data]

/-- Alternation of `upcoming.js` line 217:
`/(-|\[|\]|~|early|mid|late|end)/gi` (note: no `tbd`/`tba` here). -/
def momentToks : List (List Char) :=
  ["-".data, "[".data, "]".data, "~".data, "early".data, "mid".data, "late".data, "end".data]

/-- Line 118: `wikiDate.replace(noise, ' ').split('/')[0].trim()`. -/
def cleanCell (cell : String) : String :=
  String.mk (trimL (takeBeforeSlash (stripWith noiseToks cell.data)))

/-- Line 217: the string handed to `moment`:
`wikiDates[i].replace(/(-|\[|\]|~|early|mid|late|end)/gi, ' ').split('/')[0].trim() + ' +0000'`. -/
def momentInputOf (cell : String) : String :=
  String.mk (trimL (takeBeforeSlash (stripWith momentToks cell.data))) ++ " +0000"

/-- Line 94 / 112: `/^.*(tbd|tba).*$/i.test(wikiDate)`.  The JS dot does not
match line terminators and there is no `m` flag, so the pattern can only match
a cell free of `\n`/`\r`; on such a cell it is plain case-insensitive
containment of `tbd` or `tba`. -/
def tbdPattern (cell : String) : Bool :=
  !(cell.data.any (fun c => c == '\n' || c == '\r')) &&
    (strContainsCI cell "tbd" || strContainsCI cell "tba")

/-- Exactly `n` ASCII digits, returning the rest of the input. -/
def takeDigitsN : Nat → List Char → Option (List Char)
  | 0, l => some l
  | _ + 1, [] => none
  | n + 1, c :: t => if c.isDigit then takeDigitsN n t else none

/-- Shared front of the four date shapes: `\s*[0-9]{4}` (the `\s*` is exact
because the following token classes exclude whitespace). -/
def ymd4 (s : List Char) : Option (List Char) := takeDigitsN 4 (dropWsL s)

/-- `\s*([a-z]{3}|[a-z]{3,9})` under the `i` flag, i.e. a 3-to-9 letter month
token.  The token must cover the whole run of consecutive letters (no
following regex token can consume a letter), so the greedy run is exact. -/
def alBlk (r : List Char) : Option (List Char) :=
  let a := dropWsL r
  let k := (a.takeWhile Char.isAlpha).length
  if 3 ≤ k && k ≤ 9 then some (a.dropWhile Char.isAlpha) else none

def optHolds (p : α → Bool) : Option α → Bool
  | some x => p x
  | none => false

/-- Line 97: `/^\s*[0-9]{4}\s*$/i`. -/
def yearPattern (s : List Char) : Bool := optHolds allWsL (ymd4 s)

/-- Line 100: `/^\s*[0-9]{4}\s*([a-z]{3}|[a-z]{3,9})\s*$/i`. -/
def monthPattern (s : List Char) : Bool := optHolds allWsL ((ymd4 s).bind alBlk)

/-- Tail of line 103 after the month token: `\s*[0-9]{1,2}\s*$`.
The day run is maximal (only whitespace/end may follow), so it is the whole
run of consecutive digits, of length 1 or 2. -/
def dayTail (r : List Char) : Bool :=
  let r1 := dropWsL r
  let k := (r1.takeWhile Char.isDigit).length
  (1 ≤ k && k ≤ 2) && allWsL (r1.dropWhile Char.isDigit)

/-- Line 103: `/^\s*[0-9]{4}\s*([a-z]{3}|[a-z]{3,9})\s*[0-9]{1,2}\s*$/i`. -/
def dayPattern (s : List Char) : Bool := optHolds dayTail ((ymd4 s).bind alBlk)

/-- `\s*\[?\s*[0-9]{2}:[0-9]{2}\s*\]?\s*$` — the time-of-day tail of line 106.
Each optional bracket is consumed exactly when present (a bracket can never be
matched by the neighbouring whitespace/digit tokens). -/
def timeTail (l : List Char) : Bool :=
  let l1 := dropWsL l
  let l2 := if l1.headD ' ' == '[' then dropWsL l1.tail else l1
  match takeDigitsN 2 l2 with
  | some m =>
    if m.headD ' ' == ':' then
      match takeDigitsN 2 m.tail with
      | some l4 =>
        let l5 := dropWsL l4
        allWsL (if l5.headD ' ' == ']' then l5.tail else l5)
      | none => false
    else false
  | none => false

/-- Tail of line 106 after the month token: `\s*[0-9]{1,2}\s*(\[?\s*[0-9]{2}:[0-9]{2}\s*\]?)\s*$`.
The day may take 1 or 2 digits even when more digits follow (the time can
start right after), hence the explicit two-way alternation. -/
def hourTail (r : List Char) : Bool :=
  let r1 := dropWsL r
  (match takeDigitsN 2 r1 with
   | some rest => timeTail rest
   | none => false) ||
  (match takeDigitsN 1 r1 with
   | some rest => timeTail rest
   | none => false)

/-- Line 106: `/^\s*[0-9]{4}\s*([a-z]{3}|[a-z]{3,9})\s*[0-9]{1,2}\s*(\[?\s*[0-9]{2}:[0-9]{2}\s*\]?)\s*$/i`. -/
def hourPattern (s : List Char) : Bool := optHolds hourTail ((ymd4 s).bind alBlk)

/-- Lines 128-141 in source order: year, then month, then day, then hour. -/
def classifyCode (s : List Char) : Option String :=
  if yearPattern s then some "year"
  else if monthPattern s then some "month"
  else if dayPattern s then some "day"
  else if hourPattern s then some "hour"
  else none

/-- Follows the spec's words (section 4.1 step 4): classify by shape, most
specific first — hour, then day, then month, then year.  Kept only to compare
with the source-order `classifyCode`. -/
def classifySpec (s : List Char) : Option String :=
  if hourPattern s then some "hour"
  else if dayPattern s then some "day"
  else if monthPattern s then some "month"
  else if yearPattern s then some "year"
  else none

/-- Output of the date block of one row (lines 91-144 and 217):
`tbd` and `precision` as computed by the source, `wikiDateAfter` the local
`wikiDate` variable after the `Q`/`H1`/`H2` replacements (the source never
reads it again), and `momentInput` the string actually handed to `moment`. -/
structure DateOutcome where
  tbd : Bool
  precision : String
  wikiDateAfter : String
  momentInput : String
deriving DecidableEq

/-- Lines 106-144 plus line 217 for one date cell.  The thrown
`No date match` error carries the cleaned text, per line 143. -/
def parseDateCell (cell : String) : Except String DateOutcome :=
  let tbd := tbdPattern cell
  let cleaned := cleanCell cell
  if strContains cleaned "Q" then
    Except.ok ⟨tbd, "quarter", replaceFirstStr cell "Q" "", momentInputOf cell⟩
  else if strContains cleaned "H1" then
    Except.ok ⟨tbd, "half", replaceFirstStr cell "H1" "1", momentInputOf cell⟩
  else if strContains cleaned "H2" then
    Except.ok ⟨tbd, "half", replaceFirstStr cell "H2" "3", momentInputOf cell⟩
  else
    match classifyCode cleaned.data with
    | some p => Except.ok ⟨tbd, p, cell, momentInputOf cell⟩
    | none => Except.error ("No date match: " ++ cleaned)

/-- Lines 153-215: the closed if/else enumeration of raw site labels, each
resolved to the canonical facility name queried from the site directory;
any other label throws `No launchpad match` (line 214). -/
def resolveLaunchpad (pad : String) : Option String :=
  if pad == "SLC-40" || pad == "SLC-40 / LC-39A" || pad == "SLC-40 / BC" || pad == "SLC-40, LC-39A" then
    some "CCAFS SLC 40"
  else if pad == "LC-39A" || pad == "LC-39A / BC" || pad == "LC-39A / SLC-40" then
    some "KSC LC 39A"
  else if pad == "SLC-4E" then
    some "VAFB SLC 4E"
  else if pad == "BC" || pad == "BC / LC-39A" || pad == "BC / SLC-40" then
    some "STLS"
  else none

/-- The closed enumeration of raw site-label spellings accepted by
`resolveLaunchpad`, in source order. -/
def siteEnum : List String :=
  ["SLC-40", "SLC-40 / LC-39A", "SLC-40 / BC", "SLC-40, LC-39A",
   "LC-39A", "LC-39A / BC", "LC-39A / SLC-40",
   "SLC-4E",
   "BC", "BC / LC-39A", "BC / SLC-40"]

/-- The four canonical facilities (site-directory query names). -/
def facilities : List String := ["CCAFS SLC 40", "KSC LC 39A", "VAFB SLC 4E", "STLS"]

/-- First-listed component of a (possibly compound) site label: the text
before any `/` or `,` separator, trimmed. -/
def primaryOf (l : String) : String :=
  String.mk (trimL (l.data.takeWhile (fun c => !(c == '/') && !(c == ','))))

/-- Modelled from the spec: `fuzzball`'s default `full_process` normalization
(the library is external to the repository) — replace non-alphanumeric
characters by spaces, lower-case, trim. -/
def fuzzProc (s : String) : List Char :=
  trimL ((s.data.map Char.toLower).map (fun c => if c.isAlphanum then c else ' '))

/-- Modelled from the spec: `fuzz.partial_ratio(a, b) === 100` — the
partial-containment score is exactly 100 iff, after fuzzy normalization, one
string is fully and exactly contained within the other. -/
def partRatio100 (a b : String) : Bool :=
  hasSubL (fuzzProc a) (fuzzProc b) || hasSubL (fuzzProc b) (fuzzProc a)

/-- Modelled from the spec: `fuzz.ratio(a, b) === 100` — the full-string
similarity score is exactly 100 iff the fuzzy normalizations are equal. -/
def fullRatio100 (a b : String) : Bool :=
  fuzzProc a == fuzzProc b

/-- Line 81: `/starlink/i.test(name)`. -/
def starlinkTest (name : String) : Bool := hasSubCI name.data "starlink".data

/-- Lines 78-84, the fuzzy name matcher `matches(candidateName, wikiPayload)`:
partial containment must score 100, and for Starlink-family names the
full-string score must also be 100 (otherwise the loop `continue`s). -/
def matchesName (name payload : String) : Bool :=
  partRatio100 name payload && !(starlinkTest name && !(fullRatio100 name payload))

deriving instance DecidableEq for Except

/-- A registry record as read from the launches query (the fields the job
uses). -/
structure Launch where
  id : String
  name : String
  flight_number : Nat
  upcoming : Bool
  auto_update : Bool
deriving DecidableEq

/-- The body of the patch request built at lines 223-231.  The `moment`
calls are external, so the date fields are represented by the exact string
the code hands to `moment` (`date_input`) plus the timezone used for the
local rendering. -/
structure RawUpdate where
  flight_number : Nat
  date_precision : String
  tbd : Bool
  launchpad : String
  date_input : String
  timezone : String
deriving DecidableEq

/-- Externally observable actions of one pass: a patch request for a launch
(tagged with the wiki row index it came from) and the healthcheck ping. -/
inductive Event where
  | patch (launchId : String) (wikiIndex : Nat) (upd : RawUpdate)
  | heartbeat
deriving DecidableEq

/-- Result of a pass: the emitted events, the accumulated `flightNumbers`
array (line 16 / 147), and the error that aborted the pass, if any. -/
structure PassResult where
  events : List Event
  flightNumbers : List Nat
  err : Option String
deriving DecidableEq

/-- Inputs of one run: the registry snapshot (sorted by ascending
`flight_number` by the query options), the wiki table text, whether the
`UPCOMING_HEALTHCHECK` variable is set, and the external site directory
(facility query name to id and timezone). -/
structure PassInput where
  docs : List Launch
  wiki : String
  healthcheck : Bool
  siteId : String → String
  siteTz : String → String

/-- JS `split('\n')`, accumulator-style over the character list. -/
def splitNLGo : List Char → List Char → List (List Char)
  | [], acc => [acc.reverse]
  | c :: t, acc =>
    if c == '\n' then acc.reverse :: splitNLGo t []
    else splitNLGo t (c :: acc)

/-- Line 52: `wiki.split('\n').filter((v) => v !== '')`. -/
def wikiRowOf (wiki : String) : List String :=
  ((splitNLGo wiki.data []).map String.mk).filter (fun v => v ≠ "")

/-- Lines 54-61: pick every 8th line at offset `off` (`(index + off) % 8 === 0`)
and truncate to the first 30 (`slice(0, 30)`). -/
def pickStride (off : Nat) (rows : List String) : List String :=
  (((rows.enum.filter (fun p => (p.1 + off) % 8 == 0)).map (fun p => p.2)).take 30)

/-- Lines 65-70: if the most recent past launch still heads the wiki manifest
keep its flight number as base, else add one. -/
def baseFlightNumber (lastPast : Launch) (payload0 : String) : Nat :=
  if partRatio100 lastPast.name payload0 then lastPast.flight_number
  else lastPast.flight_number + 1

/-- Body of one matched (launch, wiki row) pair, lines 91-249: parse the date
cell (an out-of-range index makes the JS `wikiDate.replace` throw, modelled
as an error), push `base + i` onto `flightNumbers`, resolve the launchpad
label (line 214 throws on an unknown or missing label), and build the patch
event.  Returns the numbers pushed along the way and either the event or the
thrown error. -/
def processRow (inp : PassInput) (base : Nat) (launch : Launch) (i : Nat)
    (dates pads : List String) : List Nat × Except String Event :=
  match dates.get? i with
  | none => ([], Except.error "TypeError")
  | some cell =>
    match parseDateCell cell with
    | Except.error e => ([], Except.error e)
    | Except.ok o =>
      match pads.get? i with
      | none => ([base + i], Except.error "No launchpad match: undefined")
      | some pad =>
        match resolveLaunchpad pad with
        | none => ([base + i], Except.error ("No launchpad match: " ++ pad))
        | some fac =>
          ([base + i],
           Except.ok (Event.patch launch.id i
             ⟨base + i, o.precision, o.tbd, inp.siteId fac, o.momentInput, inp.siteTz fac⟩))

/-- Inner loop of lines 76-250: scan every (index, payload) pair of the wiki
window for one launch; on a fuzzy match run the row body; a thrown error
aborts the scan, keeping the events and numbers produced so far. -/
def loopRows (inp : PassInput) (base : Nat) (launch : Launch)
    (dates pads : List String) : List (Nat × String) → PassResult
  | [] => ⟨[], [], none⟩
  | (i, payload) :: rest =>
    if matchesName launch.name payload then
      match processRow inp base launch i dates pads with
      | (fns, Except.error e) => ⟨[], fns, some e⟩
      | (fns, Except.ok ev) =>
        let r := loopRows inp base launch dates pads rest
        ⟨ev :: r.events, fns ++ r.flightNumbers, r.err⟩
    else loopRows inp base launch dates pads rest

/-- Outer loop of lines 75-250: every upcoming launch with `auto_update`
enabled scans the whole wiki window; an error aborts the remaining launches. -/
def loopLaunches (inp : PassInput) (base : Nat)
    (dates payloads pads : List String) : List Launch → PassResult
  | [] => ⟨[], [], none⟩
  | l :: rest =>
    if l.auto_update then
      let r := loopRows inp base l dates pads payloads.enum
      match r.err with
      | some _ => r
      | none =>
        let r2 := loopLaunches inp base dates payloads pads rest
        ⟨r.events ++ r2.events, r.flightNumbers ++ r2.flightNumbers, r2.err⟩
    else loopLaunches inp base dates payloads pads rest

/-- One reconciliation pass, lines 21-253 inside the try block: check the wiki
selector (line 46), split the registry into upcoming and past, derive the base
flight number (an empty past partition or empty wiki window makes the JS
member access throw, modelled as an error), run the loops, and ping the
healthcheck only when everything succeeded and the variable is set. -/
def runPass (inp : PassInput) : PassResult :=
  if inp.wiki = "" then ⟨[], [], some ("Broken wiki selector: " ++ inp.wiki)⟩
  else
    match (inp.docs.filter (fun d => !d.upcoming)).getLast?,
          (pickStride 3 (wikiRowOf inp.wiki)).head? with
    | some lastPast, some payload0 =>
      let r := loopLaunches inp (baseFlightNumber lastPast payload0)
        (pickStride 0 (wikiRowOf inp.wiki)) (pickStride 3 (wikiRowOf inp.wiki))
        (pickStride 6 (wikiRowOf inp.wiki)) (inp.docs.filter (fun d => d.upcoming))
      match r.err with
      | some _ => r
      | none =>
        if inp.healthcheck then ⟨r.events ++ [Event.heartbeat], r.flightNumbers, none⟩
        else r
    | _, _ => ⟨[], [], some "TypeError"⟩

/-- The exported function, lines 21-256: the whole pass runs in a try/catch
whose handler only calls `console.log(error)`, so the caller always gets a
normal completion and observes only the emitted events. -/
def runJob (inp : PassInput) : List Event := (runPass inp).events

/-! Concrete sample data used to instantiate the theorems below on closed
inputs.  The wiki text carries one full 8-line manifest row: the date cell at
line offset 0, the site cell at offset 2 and the payload cell at offset 5,
matching the `(index + off) % 8 === 0` projections. -/

def sampleWiki : String := "2020 Nov 4\n.\nSLC-40\n.\n.\nStarlink 23\n.\n."

def samplePast : Launch := ⟨"p1", "CRS-21", 100, false, false⟩

def sampleUp : Launch := ⟨"u1", "Starlink 23", 110, true, true⟩

def sampleInp : PassInput :=
  ⟨[samplePast, sampleUp], sampleWiki, true, fun _ => "sid", fun _ => "tz"⟩

def sampleInpFail : PassInput := ⟨[], "x", true, fun _ => "sid", fun _ => "tz"⟩

def sampleUpd : RawUpdate := ⟨101, "day", false, "sid", "2020 Nov 4 +0000", "tz"⟩

def dupA : Launch := ⟨"a", "CRS-21", 120, true, true⟩

def dupB : Launch := ⟨"b", "CRS-21", 121, true, true⟩

/-! ### Character and pattern lemmas -/

theorem ws_not_digit {c : Char} (h : isWsC c = true) : c.isDigit = false := by
  simp only [isWsC, Bool.or_eq_true, beq_iff_eq] at h
  rcases h with ((((h | h) | h) | h) | h) | h <;> subst h <;> rfl

theorem digit_not_ws {c : Char} (h : c.isDigit = true) : isWsC c = false := by
  by_contra hw
  rw [Bool.not_eq_false] at hw
  rw [ws_not_digit hw] at h
  exact absurd h (by decide)

theorem digit_ne {c d : Char} (h : c.isDigit = true) (hd : d.isDigit = false) : c ≠ d := by
  intro he
  subst he
  rw [h] at hd
  exact absurd hd (by decide)

theorem allWs_dropWs {l : List Char} (h : allWsL l = true) : dropWsL l = [] := by
  induction l with
  | nil => rfl
  | cons c t ih =>
    simp only [allWsL, List.all_cons, Bool.and_eq_true] at h
    simp only [dropWsL, List.dropWhile_cons, h.1, if_true]
    exact ih h.2

theorem allWs_alBlk {r : List Char} (h : allWsL r = true) : alBlk r = none := by
  simp [alBlk, allWs_dropWs h]

theorem allWs_timeTail {l : List Char} (h : allWsL l = true) : timeTail l = false := by
  simp [timeTail, allWs_dropWs h, takeDigitsN]

theorem allWs_dayTail {r : List Char} (h : allWsL r = true) : dayTail r = false := by
  simp [dayTail, allWs_dropWs h]

theorem allWs_hourTail {r : List Char} (h : allWsL r = true) : hourTail r = false := by
  simp [hourTail, allWs_dropWs h, takeDigitsN]

theorem timeTail_digit_head {b : Char} {u : List Char} (hb : b.isDigit = true)
    (hu : (u.headD ' ').isDigit = false) : timeTail (b :: u) = false := by
  have hbw : isWsC b = false := digit_not_ws hb
  have hbl : (b == '[') = false := by
    rw [beq_eq_false_iff_ne]
    exact digit_ne hb (by decide)
  simp only [timeTail, dropWsL, List.dropWhile_cons, hbw, Bool.false_eq_true, if_false,
    List.headD_cons, hbl]
  cases u with
  | nil => simp [takeDigitsN, hb]
  | cons v w =>
    simp only [List.headD_cons] at hu
    simp [takeDigitsN, hb, hu]

theorem dayTail_hourTail {r : List Char} (h : dayTail r = true) : hourTail r = false := by
  simp only [dayTail, Bool.and_eq_true, decide_eq_true_eq] at h
  simp only [hourTail]
  cases hR : dropWsL r with
  | nil =>
    rw [hR] at h
    simp at h
  | cons a t =>
    rw [hR] at h
    by_cases hda : a.isDigit = true
    · cases t with
      | nil =>
        have h1 : timeTail ([] : List Char) = false := by decide
        have h2 : timeTail [a] = false := timeTail_digit_head hda (by decide)
        simp [takeDigitsN, hda, h1, h2]
      | cons b u =>
        by_cases hdb : b.isDigit = true
        · -- two leading digits; the digit run must stop here
          cases u with
          | nil =>
            have h1 : timeTail ([] : List Char) = false := by decide
            have h2 : timeTail [b] = false := timeTail_digit_head hdb (by decide)
            simp [takeDigitsN, hda, hdb, h1, h2]
          | cons v w =>
            have hdv : v.isDigit = false := by
              by_contra hv
              rw [Bool.not_eq_false] at hv
              simp [List.takeWhile_cons, hda, hdb, hv] at h
            have hws : allWsL (v :: w) = true := by
              simpa [List.dropWhile_cons, hda, hdb, hdv] using h.2
            have h1 : timeTail (v :: w) = false := allWs_timeTail hws
            have h2 : timeTail (b :: v :: w) = false :=
              timeTail_digit_head hdb (by simpa using hdv)
            simp [takeDigitsN, hda, hdb, hdv, h1, h2]
        · -- a single leading digit, then whitespace up to the end
          have hws : allWsL (b :: u) = true := by
            simpa [List.dropWhile_cons, hda, hdb] using h.2
          have h1 : timeTail (b :: u) = false := allWs_timeTail hws
          simp [takeDigitsN, hda, hdb, h1]
    · simp [List.takeWhile_cons, hda] at h

theorem year_excl {s : List Char} (h : yearPattern s = true) :
    monthPattern s = false ∧ dayPattern s = false ∧ hourPattern s = false := by
  unfold yearPattern at h
  cases hy : ymd4 s with
  | none => rw [hy] at h; exact absurd h (by simp [optHolds])
  | some r =>
    rw [hy] at h
    simp only [optHolds] at h
    refine ⟨?_, ?_, ?_⟩ <;>
      simp [monthPattern, dayPattern, hourPattern, hy, allWs_alBlk h, optHolds]

theorem month_excl {s : List Char} (h : monthPattern s = true) :
    dayPattern s = false ∧ hourPattern s = false := by
  unfold monthPattern at h
  cases hb : (ymd4 s).bind alBlk with
  | none => rw [hb] at h; exact absurd h (by simp [optHolds])
  | some t =>
    rw [hb] at h
    simp only [optHolds] at h
    constructor <;>
      simp [dayPattern, hourPattern, hb, optHolds, allWs_dayTail h, allWs_hourTail h]

theorem day_excl {s : List Char} (h : dayPattern s = true) : hourPattern s = false := by
  unfold dayPattern at h
  cases hb : (ymd4 s).bind alBlk with
  | none => rw [hb] at h; exact absurd h (by simp [optHolds])
  | some t =>
    rw [hb] at h
    simp only [optHolds] at h
    simp [hourPattern, hb, optHolds, dayTail_hourTail h]

theorem classify_code_eq_spec (s : List Char) : classifyCode s = classifySpec s := by
  by_cases hyr : yearPattern s = true
  · obtain ⟨hm, hd, hh⟩ := year_excl hyr
    simp [classifyCode, classifySpec, hyr, hm, hd, hh]
  · by_cases hmo : monthPattern s = true
    · obtain ⟨hd, hh⟩ := month_excl hmo
      simp [classifyCode, classifySpec, hyr, hmo, hd, hh]
    · by_cases hda : dayPattern s = true
      · simp [classifyCode, classifySpec, hyr, hmo, hda, day_excl hda]
      · by_cases hho : hourPattern s = true <;>
          simp [classifyCode, classifySpec, hyr, hmo, hda, hho]

/-! ### Date-parser lemmas -/

theorem parseDateCell_tbd {cell : String} {o : DateOutcome}
    (h : parseDateCell cell = Except.ok o) : o.tbd = tbdPattern cell := by
  simp only [parseDateCell] at h
  split at h
  · cases h; rfl
  · split at h
    · cases h; rfl
    · split at h
      · cases h; rfl
      · split at h
        · cases h; rfl
        · exact Except.noConfusion h

theorem parseDateCell_noShape {cell : String}
    (hQ : strContains (cleanCell cell) "Q" = false)
    (h1 : strContains (cleanCell cell) "H1" = false)
    (h2 : strContains (cleanCell cell) "H2" = false)
    (hc : classifyCode (cleanCell cell).data = none) :
    parseDateCell cell = Except.error ("No date match: " ++ cleanCell cell) := by
  simp [parseDateCell, hQ, h1, h2, hc]

/-! ### Loop lemmas -/

theorem processRow_ok {inp : PassInput} {base : Nat} {launch : Launch} {i : Nat}
    {dates pads : List String} {fns : List Nat} {ev : Event}
    (h : processRow inp base launch i dates pads = (fns, Except.ok ev)) :
    fns = [base + i] ∧
      ∃ u, ev = Event.patch launch.id i u ∧ u.flight_number = base + i := by
  unfold processRow at h
  split at h
  · simp at h
  · split at h
    · simp at h
    · split at h
      · simp at h
      · split at h
        · simp at h
        · rw [Prod.mk.injEq] at h
          obtain ⟨hf, he⟩ := h
          exact ⟨hf.symm, _, (Except.ok.inj he).symm, rfl⟩

theorem loopRows_patch {inp : PassInput} {base : Nat} {launch : Launch}
    {dates pads : List String} {rows : List (Nat × String)} {lid : String} {i : Nat}
    {u : RawUpdate}
    (h : Event.patch lid i u ∈ (loopRows inp base launch dates pads rows).events) :
    u.flight_number = base + i := by
  induction rows with
  | nil => simp [loopRows] at h
  | cons rp rest ih =>
    obtain ⟨j, payload⟩ := rp
    rw [loopRows] at h
    split at h
    · split at h
      · simp at h
      · rename_i fns ev heq
        simp only [List.mem_cons] at h
        rcases h with h | h
        · obtain ⟨-, u', hev, hfn⟩ := processRow_ok heq
          rw [hev, Event.patch.injEq] at h
          obtain ⟨-, h2, h3⟩ := h
          rw [h3]
          rw [← h2] at hfn
          exact hfn
        · exact ih h
    · exact ih h

theorem heartbeat_not_loopRows {inp : PassInput} {base : Nat} {launch : Launch}
    {dates pads : List String} {rows : List (Nat × String)} :
    Event.heartbeat ∉ (loopRows inp base launch dates pads rows).events := by
  induction rows with
  | nil => simp [loopRows]
  | cons rp rest ih =>
    obtain ⟨j, payload⟩ := rp
    rw [loopRows]
    split
    · split
      · simp
      · rename_i fns ev heq
        obtain ⟨-, u', hev, -⟩ := processRow_ok heq
        subst hev
        intro h
        simp only [List.mem_cons] at h
        rcases h with h | h
        · exact Event.noConfusion h
        · exact ih h
    · exact ih

theorem loopRows_err_frozen {inp : PassInput} {base : Nat} {launch : Launch}
    {dates pads : List String} {rows more : List (Nat × String)} {e : String}
    (h : (loopRows inp base launch dates pads rows).err = some e) :
    loopRows inp base launch dates pads (rows ++ more) =
      loopRows inp base launch dates pads rows := by
  induction rows with
  | nil => simp [loopRows] at h
  | cons rp rest ih =>
    obtain ⟨j, payload⟩ := rp
    rw [List.cons_append]
    rw [loopRows] at h ⊢
    conv_rhs => rw [loopRows]
    by_cases hm : matchesName launch.name payload = true
    · rw [if_pos hm] at h ⊢
      rw [if_pos hm]
      rcases hpr : processRow inp base launch j dates pads with ⟨fns, ex⟩
      rw [hpr] at h
      cases ex with
      | error e' => rfl
      | ok ev =>
        simp only at h
        rw [ih h]
    · rw [if_neg hm] at h ⊢
      rw [if_neg hm]
      exact ih h

theorem loopLaunches_patch {inp : PassInput} {base : Nat}
    {dates payloads pads : List String} {ups : List Launch} {lid : String} {i : Nat}
    {u : RawUpdate}
    (h : Event.patch lid i u ∈ (loopLaunches inp base dates payloads pads ups).events) :
    u.flight_number = base + i := by
  induction ups with
  | nil => simp [loopLaunches] at h
  | cons l rest ih =>
    simp only [loopLaunches] at h
    split at h
    · split at h
      · exact loopRows_patch h
      · simp only [List.mem_append] at h
        rcases h with h | h
        · exact loopRows_patch h
        · exact ih h
    · exact ih h

theorem heartbeat_not_loopLaunches {inp : PassInput} {base : Nat}
    {dates payloads pads : List String} {ups : List Launch} :
    Event.heartbeat ∉ (loopLaunches inp base dates payloads pads ups).events := by
  induction ups with
  | nil => simp [loopLaunches]
  | cons l rest ih =>
    simp only [loopLaunches]
    split
    · split
      · exact heartbeat_not_loopRows
      · intro h
        simp only [List.mem_append] at h
        rcases h with h | h
        · exact heartbeat_not_loopRows h
        · exact ih h
    · exact ih

theorem loopLaunches_err_frozen {inp : PassInput} {base : Nat}
    {dates payloads pads : List String} {ups more : List Launch} {e : String}
    (h : (loopLaunches inp base dates payloads pads ups).err = some e) :
    loopLaunches inp base dates payloads pads (ups ++ more) =
      loopLaunches inp base dates payloads pads ups := by
  induction ups with
  | nil => simp [loopLaunches] at h
  | cons l rest ih =>
    by_cases ha : l.auto_update = true
    · simp only [List.cons_append, loopLaunches, ha, if_true] at h ⊢
      cases hre : (loopRows inp base l dates pads payloads.enum).err with
      | some e' => simp only [hre]
      | none =>
        rw [hre] at h
        simp only at h
        simp only [hre, List.append_eq]
        rw [ih h]
    · simp only [List.cons_append, loopLaunches, ha] at h ⊢
      exact ih h

/-! ### Pass-level lemmas -/

theorem runPass_patch_base {inp : PassInput} {lastPast : Launch} {payload0 : String}
    (hw : inp.wiki ≠ "")
    (hlast : (inp.docs.filter (fun d => !d.upcoming)).getLast? = some lastPast)
    (hp0 : (pickStride 3 (wikiRowOf inp.wiki)).head? = some payload0)
    {lid : String} {i : Nat} {u : RawUpdate}
    (h : Event.patch lid i u ∈ (runPass inp).events) :
    u.flight_number = baseFlightNumber lastPast payload0 + i := by
  rw [runPass, if_neg hw] at h
  simp only [hlast, hp0] at h
  cases hre : (loopLaunches inp (baseFlightNumber lastPast payload0)
      (pickStride 0 (wikiRowOf inp.wiki)) (pickStride 3 (wikiRowOf inp.wiki))
      (pickStride 6 (wikiRowOf inp.wiki)) (inp.docs.filter (fun d => d.upcoming))).err with
  | some e =>
    rw [hre] at h
    simp only at h
    exact loopLaunches_patch h
  | none =>
    rw [hre] at h
    simp only at h
    split at h
    · simp only [List.mem_append] at h
      rcases h with h | h
      · exact loopLaunches_patch h
      · simp at h
    · exact loopLaunches_patch h

theorem runPass_err_no_heartbeat {inp : PassInput}
    (h : (runPass inp).err.isSome = true) :
    Event.heartbeat ∉ (runPass inp).events := by
  by_cases hw : inp.wiki = ""
  · simp [runPass, hw]
  · cases hlast : (inp.docs.filter (fun d => !d.upcoming)).getLast? with
    | none => simp [runPass, hw, hlast]
    | some lastPast =>
      cases hp0 : (pickStride 3 (wikiRowOf inp.wiki)).head? with
      | none => simp [runPass, hw, hlast, hp0]
      | some payload0 =>
        cases hre : (loopLaunches inp (baseFlightNumber lastPast payload0)
            (pickStride 0 (wikiRowOf inp.wiki)) (pickStride 3 (wikiRowOf inp.wiki))
            (pickStride 6 (wikiRowOf inp.wiki)) (inp.docs.filter (fun d => d.upcoming))).err with
        | some e =>
          simp only [runPass, hw, hlast, hp0, hre, ite_false, eq_self_iff_true]
          exact heartbeat_not_loopLaunches
        | none =>
          exfalso
          by_cases hc : inp.healthcheck = true <;>
            simp [runPass, hw, hlast, hp0, hre, hc] at h

theorem runPass_ok_heartbeat {inp : PassInput}
    (he : (runPass inp).err = none) (hc : inp.healthcheck = true) :
    (runPass inp).events.count Event.heartbeat = 1 ∧
      (runPass inp).events.getLast? = some Event.heartbeat := by
  by_cases hw : inp.wiki = ""
  · simp [runPass, hw] at he
  · cases hlast : (inp.docs.filter (fun d => !d.upcoming)).getLast? with
    | none => simp [runPass, hw, hlast] at he
    | some lastPast =>
      cases hp0 : (pickStride 3 (wikiRowOf inp.wiki)).head? with
      | none => simp [runPass, hw, hlast, hp0] at he
      | some payload0 =>
        cases hre : (loopLaunches inp (baseFlightNumber lastPast payload0)
            (pickStride 0 (wikiRowOf inp.wiki)) (pickStride 3 (wikiRowOf inp.wiki))
            (pickStride 6 (wikiRowOf inp.wiki)) (inp.docs.filter (fun d => d.upcoming))).err with
        | some e => simp [runPass, hw, hlast, hp0, hre] at he
        | none =>
          have hnb : Event.heartbeat ∉ (loopLaunches inp (baseFlightNumber lastPast payload0)
              (pickStride 0 (wikiRowOf inp.wiki)) (pickStride 3 (wikiRowOf inp.wiki))
              (pickStride 6 (wikiRowOf inp.wiki)) (inp.docs.filter (fun d => d.upcoming))).events :=
            heartbeat_not_loopLaunches
          simp only [runPass, hw, hlast, hp0, hre, hc, ite_true, ite_false, eq_self_iff_true]
          constructor
          · rw [List.count_append, List.count_eq_zero.mpr hnb]
            simp
          · rw [List.getLast?_concat]

theorem pairwise_le_getLast {l : List Launch} {x : Launch}
    (hp : List.Pairwise (fun a b => a.flight_number ≤ b.flight_number) l)
    (hx : l.getLast? = some x) : ∀ y ∈ l, y.flight_number ≤ x.flight_number := by
  induction l with
  | nil => cases hx
  | cons a t ih =>
    cases t with
    | nil =>
      obtain rfl : a = x := by simpa using hx
      intro y hy
      obtain rfl : y = a := by simpa using hy
      exact Nat.le_refl _
    | cons b u =>
      rw [List.getLast?_cons_cons] at hx
      obtain ⟨ha, hp'⟩ := List.pairwise_cons.mp hp
      intro y hy
      rcases List.mem_cons.mp hy with rfl | hy
      · exact ha x (List.mem_of_getLast?_eq_some hx)
      · exact ih hp' hx y hy

theorem resolveLaunchpad_notin {L : String} (h : L ∉ siteEnum) :
    resolveLaunchpad L = none := by
  simp only [siteEnum, List.mem_cons, List.not_mem_nil, or_false, not_or] at h
  obtain ⟨h1, h2, h3, h4, h5, h6, h7, h8, h9, h10, h11⟩ := h
  simp [resolveLaunchpad, h1, h2, h3, h4, h5, h6, h7, h8, h9, h10, h11]

/-! ### Claim theorems -/

/-- Claim C1, counterexample: the spec requires
`matches("Starlink 23", "Starlink 23 mission")` to be true, but the matcher
rejects this pair — the name passes the partial-containment test yet the
candidate is in the Starlink family, and the full-string score against the
label with the extra " mission" text is not 100, so the loop continues. -/
theorem c1_counterexample :
    matchesName "Starlink 23" "Starlink 23 mission" = false := by decide

/-- Claim C1 as amended: for the pair ("Starlink 23", "Starlink 23 mission")
partial containment scores 100 but the required Starlink full-string condition
fails, so the matcher rejects the pair; a Starlink-family candidate is accepted
only when the full strings agree after fuzzy normalization, as for
("Starlink 23", "Starlink 23"). -/
theorem c1_amended :
    partRatio100 "Starlink 23" "Starlink 23 mission" = true ∧
    starlinkTest "Starlink 23" = true ∧
    fullRatio100 "Starlink 23" "Starlink 23 mission" = false ∧
    matchesName "Starlink 23" "Starlink 23 mission" = false ∧
    matchesName "Starlink 23" "Starlink 23" = true := by decide

/-- Claim C2: for the cell "TBD 2021 H2" the parser does produce
precision "half" and tbd = true, and it does replace "H2" by "3" — but only in
the dead local `wikiDate`; the string actually handed to `moment` for the
stored instant is rebuilt from the original cell and still contains both
"TBD" and "H2", so the stored instant is not the claimed quarter-month-3
normalization.  This evaluates the embedded code at the failing input. -/
theorem c2_h2_replacement_unused :
    parseDateCell "TBD 2021 H2" =
      Except.ok ⟨true, "half", "TBD 2021 3", "TBD 2021 H2 +0000"⟩ ∧
    strContains (momentInputOf "TBD 2021 H2") "H2" = true ∧
    strContainsCI (momentInputOf "TBD 2021 H2") "tbd" = true := by decide

/-- Claim C3: with a registry sorted by ascending flight number, a non-empty
past partition and a non-empty wiki window, the last past record is the
highest-numbered one; the base flight number is its flight number when its
name partial-matches the first wiki payload at score 100 and that number plus
one otherwise; and every emitted patch for the wiki row at offset `i` carries
flight number `base + i`, where `i` indexes the truncated ≤30-row window. -/
theorem c3_ordering (inp : PassInput) (lastPast : Launch) (payload0 : String)
    (hsort : List.Pairwise (fun a b => a.flight_number ≤ b.flight_number) inp.docs)
    (hw : inp.wiki ≠ "")
    (hlast : (inp.docs.filter (fun d => !d.upcoming)).getLast? = some lastPast)
    (hp0 : (pickStride 3 (wikiRowOf inp.wiki)).head? = some payload0) :
    (∀ l ∈ inp.docs.filter (fun d => !d.upcoming),
      l.flight_number ≤ lastPast.flight_number) ∧
    baseFlightNumber lastPast payload0 =
      (if partRatio100 lastPast.name payload0 then lastPast.flight_number
       else lastPast.flight_number + 1) ∧
    (∀ lid i u, Event.patch lid i u ∈ (runPass inp).events →
      u.flight_number = baseFlightNumber lastPast payload0 + i) := by
  refine ⟨?_, rfl, fun lid i u h => runPass_patch_base hw hlast hp0 h⟩
  have hpf : List.Pairwise (fun a b => a.flight_number ≤ b.flight_number)
      (inp.docs.filter (fun d => !d.upcoming)) :=
    List.Pairwise.sublist (List.filter_sublist _) hsort
  exact pairwise_le_getLast hpf hlast

/-- Claim C3 witness: on the sample input the past record "CRS-21" (number
100) does not match the first payload "Starlink 23", so the single emitted
patch for row 0 carries `baseFlightNumber samplePast "Starlink 23" + 0`,
which evaluates to 101. -/
theorem c3_ordering_witness :
    sampleUpd.flight_number = baseFlightNumber samplePast "Starlink 23" + 0 :=
  (c3_ordering sampleInp samplePast "Starlink 23" (by decide) (by decide)
    (by decide) (by decide)).2.2 "u1" 0 sampleUpd (by decide)

/-- Claim C4: acceptance always requires a partial-containment score of
exactly 100; "SSO-A" does not match against an "SSO-B" label, and
"Starlink 2" does not match "Starlink 23 mission" even though it passes
partial containment, because the Starlink full-string score is not 100. -/
theorem c4_strict_threshold :
    (∀ name payload : String,
      matchesName name payload = true → partRatio100 name payload = true) ∧
    matchesName "SSO-A" "SSO-B label text" = false ∧
    matchesName "Starlink 2" "Starlink 23 mission" = false ∧
    partRatio100 "Starlink 2" "Starlink 23 mission" = true := by
  refine ⟨?_, by decide, by decide, by decide⟩
  intro name payload h
  rw [matchesName, Bool.and_eq_true] at h
  exact h.1

/-- Claim C4 witness at a concrete accepted pair. -/
theorem c4_strict_threshold_witness :
    partRatio100 "CRS-21" "CRS-21 (Dragon)" = true :=
  c4_strict_threshold.1 "CRS-21" "CRS-21 (Dragon)" (by decide)

/-- Claim C5: the source checks the four anchored shapes in the order year,
month, day, hour, but the shapes are mutually exclusive, so the result equals
the spec's most-specific-first classification; a cleaned cell without
quarter/half tokens that matches no shape makes the parser fail with the
`No date match` error carrying the cleaned text ("soon" concretely); and the
month token accepts abbreviated and full month names. -/
theorem c5_shape_classification :
    (∀ s : List Char, classifyCode s = classifySpec s) ∧
    (∀ cell : String,
      strContains (cleanCell cell) "Q" = false →
      strContains (cleanCell cell) "H1" = false →
      strContains (cleanCell cell) "H2" = false →
      classifyCode (cleanCell cell).data = none →
      parseDateCell cell = Except.error ("No date match: " ++ cleanCell cell)) ∧
    parseDateCell "soon" = Except.error "No date match: soon" ∧
    classifyCode "2020".data = some "year" ∧
    classifyCode "2020 Nov".data = some "month" ∧
    classifyCode "2020 November".data = some "month" ∧
    classifyCode "2020 Nov 4".data = some "day" ∧
    classifyCode "2020 Nov 4 [14:10]".data = some "hour" ∧
    classifyCode "2020 Nov 4 14:10".data = some "hour" :=
  ⟨classify_code_eq_spec, fun _ hQ h1 h2 hc => parseDateCell_noShape hQ h1 h2 hc,
   by decide, by decide, by decide, by decide, by decide, by decide, by decide⟩

/-- Claim C5 witness: the no-shape branch at the concrete cell "abc". -/
theorem c5_shape_classification_witness :
    parseDateCell "abc" = Except.error "No date match: abc" :=
  c5_shape_classification.2.1 "abc" (by decide) (by decide) (by decide) (by decide)

/-- Claim C6: every label of the closed enumeration resolves deterministically
to one of the four canonical facilities, every compound label resolves to the
facility of its first-listed (primary) component, and every label outside the
enumeration fails (`No launchpad match`). -/
theorem c6_launchpad_resolver :
    (∀ L ∈ siteEnum, ∃ f, resolveLaunchpad L = some f ∧ f ∈ facilities) ∧
    (∀ L ∈ siteEnum, resolveLaunchpad L = resolveLaunchpad (primaryOf L)) ∧
    (∀ L : String, L ∉ siteEnum → resolveLaunchpad L = none) :=
  ⟨by decide, by decide, fun _ h => resolveLaunchpad_notin h⟩

/-- Claim C6 witness: a compound label resolving to its primary facility, and
an unknown label failing. -/
theorem c6_launchpad_resolver_witness :
    resolveLaunchpad "SLC-40 / LC-39A" = resolveLaunchpad (primaryOf "SLC-40 / LC-39A") ∧
    resolveLaunchpad "Foo" = none :=
  ⟨c6_launchpad_resolver.2.1 "SLC-40 / LC-39A" (by decide),
   c6_launchpad_resolver.2.2 "Foo" (by decide)⟩

/-- Claim C7: a thrown error freezes the row scan and the launch scan (the
remaining rows and records are never processed: extending the input beyond
the failing point leaves the result unchanged); a pass that ends with an
error emits no heartbeat; and a pass that completes without error with the
healthcheck configured emits exactly one heartbeat, as the last event. -/
theorem c7_fatal_abort :
    (∀ (inp : PassInput) (base : Nat) (launch : Launch) (dates pads : List String)
        (rows more : List (Nat × String)) (e : String),
      (loopRows inp base launch dates pads rows).err = some e →
      loopRows inp base launch dates pads (rows ++ more) =
        loopRows inp base launch dates pads rows) ∧
    (∀ (inp : PassInput) (base : Nat) (dates payloads pads : List String)
        (ups more : List Launch) (e : String),
      (loopLaunches inp base dates payloads pads ups).err = some e →
      loopLaunches inp base dates payloads pads (ups ++ more) =
        loopLaunches inp base dates payloads pads ups) ∧
    (∀ inp : PassInput, (runPass inp).err.isSome = true →
      (runPass inp).events.count Event.heartbeat = 0) ∧
    (∀ inp : PassInput, (runPass inp).err = none → inp.healthcheck = true →
      (runPass inp).events.count Event.heartbeat = 1 ∧
      (runPass inp).events.getLast? = some Event.heartbeat) :=
  ⟨fun _ _ _ _ _ _ _ _ h => loopRows_err_frozen h,
   fun _ _ _ _ _ _ _ _ h => loopLaunches_err_frozen h,
   fun _ h => List.count_eq_zero.mpr (runPass_err_no_heartbeat h),
   fun _ he hc => runPass_ok_heartbeat he hc⟩

/-- Claim C7 witness: the successful sample pass pings the heartbeat exactly
once and last; the failing sample pass pings it zero times. -/
theorem c7_fatal_abort_witness :
    (runPass sampleInp).events.count Event.heartbeat = 1 ∧
    (runPass sampleInpFail).events.count Event.heartbeat = 0 :=
  ⟨(c7_fatal_abort.2.2.2 sampleInp (by decide) (by decide)).1,
   c7_fatal_abort.2.2.1 sampleInpFail (by decide)⟩

/-- Claim C8 counterexample: the claim's iff — tentativeness is set exactly
when the cell contains "tbd"/"tba" anywhere — fails on a cell retaining a
CRLF remnant: `"2021 TBD\r"` contains "tbd", yet the anchored JS pattern
`/^.*(tbd|tba).*$/i` cannot match a string holding a line terminator (the
dot excludes them and there is no `m` flag), so the cell parses with
`tbd = false` (the cleaning still strips the token and the trailing `\r`,
leaving the year shape "2021"). -/
theorem c8_counterexample :
    parseDateCell "2021 TBD\r" =
      Except.ok ⟨false, "year", "2021 TBD\r", "2021 TBD +0000"⟩ ∧
    strContainsCI "2021 TBD\r" "tbd" = true := by decide

/-- Claim C8 as amended: a successfully parsed outcome always has `tbd` equal
to the anchored-pattern test, which is false for any cell containing a line
terminator (`\n`/`\r`, e.g. a CRLF remnant of the line split); for a cell
free of line terminators the flag is set iff the raw cell contains "tbd" or
"tba" case-insensitively.  Tentativeness never rescues parsing — a tentative
cell whose cleaned text matches no shape still fails with the
`No date match` error ("TBD" concretely), while a tentative cell with a date
shape parses with `tbd = true` ("2021 TBD" concretely). -/
theorem c8_tentative_flag :
    (∀ (cell : String) (o : DateOutcome),
      parseDateCell cell = Except.ok o → o.tbd = tbdPattern cell) ∧
    (∀ (cell : String) (o : DateOutcome),
      cell.data.any (fun c => c == '\n' || c == '\r') = false →
      parseDateCell cell = Except.ok o →
      o.tbd = (strContainsCI cell "tbd" || strContainsCI cell "tba")) ∧
    (∀ cell : String,
      tbdPattern cell = true →
      strContains (cleanCell cell) "Q" = false →
      strContains (cleanCell cell) "H1" = false →
      strContains (cleanCell cell) "H2" = false →
      classifyCode (cleanCell cell).data = none →
      parseDateCell cell = Except.error ("No date match: " ++ cleanCell cell)) ∧
    tbdPattern "TBD" = true ∧
    parseDateCell "TBD" = Except.error "No date match: " ∧
    parseDateCell "2021 TBD" =
      Except.ok ⟨true, "year", "2021 TBD", "2021 TBD +0000"⟩ := by
  refine ⟨fun _ _ hok => parseDateCell_tbd hok, ?_,
    fun _ _ hQ h1 h2 hc => parseDateCell_noShape hQ h1 h2 hc,
    by decide, by decide, by decide⟩
  intro cell o hnl hok
  rw [parseDateCell_tbd hok]
  simp only [tbdPattern, hnl]
  simp

/-- Claim C8 witness: the tbd flag of the parsed sample cell "2020 Nov 4"
equals the containment test. -/
theorem c8_tentative_flag_witness :
    (⟨false, "day", "2020 Nov 4", "2020 Nov 4 +0000"⟩ : DateOutcome).tbd =
      (strContainsCI "2020 Nov 4" "tbd" || strContainsCI "2020 Nov 4" "tba") :=
  c8_tentative_flag.2.1 "2020 Nov 4" ⟨false, "day", "2020 Nov 4", "2020 Nov 4 +0000"⟩
    (by decide) (by decide)

/-- Claim C9: the exported operation returns the event trace unconditionally
— the try/catch handler only logs, so no error reaches the caller — and when
the pass aborted, the trace shows no heartbeat (the abort is observable only
through the absent heartbeat and the patches that were never emitted). -/
theorem c9_top_level_catch :
    (∀ inp : PassInput, runJob inp = (runPass inp).events) ∧
    (∀ inp : PassInput, (runPass inp).err.isSome = true →
      Event.heartbeat ∉ runJob inp) :=
  ⟨fun _ => rfl, fun _ h => runPass_err_no_heartbeat h⟩

/-- Claim C9 witness: the failing sample input (empty registry makes the base
derivation throw) still returns a trace, with no heartbeat in it. -/
theorem c9_top_level_catch_witness : Event.heartbeat ∉ runJob sampleInpFail :=
  c9_top_level_catch.2 sampleInpFail (by decide)

/-- Claim C10: when two distinct auto-update records both match the same
manifest row, each gets its own patch event and both events carry the same
flight number `base + 0`; the duplicate number is pushed twice onto the
`flightNumbers` list, and the pass still ends with no error (the list is
never read back, so duplicates neither fail nor warn). -/
theorem c10_duplicates (inp : PassInput) (base : Nat) (l1 l2 : Launch)
    (d p pad : String) (o : DateOutcome) (fac : String)
    (_hne : l1.id ≠ l2.id)
    (h1 : l1.auto_update = true) (h2 : l2.auto_update = true)
    (hm1 : matchesName l1.name p = true) (hm2 : matchesName l2.name p = true)
    (hd : parseDateCell d = Except.ok o) (hp : resolveLaunchpad pad = some fac) :
    loopLaunches inp base [d] [p] [pad] [l1, l2] =
      ⟨[Event.patch l1.id 0
          ⟨base, o.precision, o.tbd, inp.siteId fac, o.momentInput, inp.siteTz fac⟩,
        Event.patch l2.id 0
          ⟨base, o.precision, o.tbd, inp.siteId fac, o.momentInput, inp.siteTz fac⟩],
       [base, base], none⟩ := by
  simp [loopLaunches, loopRows, processRow, h1, h2, hm1, hm2, hd, hp,
    List.enum, List.enumFrom]

/-- Claim C10 witness: two distinct records named "CRS-21" both match the
one-row manifest; both patches carry flight number 5, the collision list
records [5, 5], and the pass succeeds. -/
theorem c10_duplicates_witness :
    loopLaunches sampleInpFail 5 ["2020 Nov 4"] ["CRS-21"] ["SLC-40"] [dupA, dupB] =
      ⟨[Event.patch "a" 0 ⟨5, "day", false, "sid", "2020 Nov 4 +0000", "tz"⟩,
        Event.patch "b" 0 ⟨5, "day", false, "sid", "2020 Nov 4 +0000", "tz"⟩],
       [5, 5], none⟩ :=
  c10_duplicates sampleInpFail 5 dupA dupB "2020 Nov 4" "CRS-21" "SLC-40"
    ⟨false, "day", "2020 Nov 4", "2020 Nov 4 +0000"⟩ "CCAFS SLC 40"
    (by decide) rfl rfl (by decide) (by decide) (by decide) (by decide)
